import Mathlib

/-!
Verification of the three-tier chatbot matching pipeline (exact / lexical
Jaccard / semantic embedding) of the chat-edusvn repository.

The JavaScript source is shallowly embedded:
* strings are `String` (lists of Unicode code points),
* JavaScript numbers carrying similarity/confidence scores are `ℚ`,
* the Firestore candidate store is an ordered `List Record` (collection
  iteration order = list order), `where`-filters become `List.filter`,
  `limit n` becomes `List.take n`,
* the OpenAI embedding provider is an explicit function `String → List ℚ`
  passed to the pipeline (a pure function, as the spec treats it),
* fire-and-forget analytics logging and the per-stage `try`/`catch`
  recovery paths are modelled where reachable; branches that are only
  reachable through a thrown exception are noted in comments.

`Math.sqrt` (used only by `cosineSimilarity`) is modelled by an integer
Newton iteration on numerator and denominator; it agrees with the real
square root exactly on rationals whose reduced numerator and denominator
are perfect squares, which covers every concrete vector used below.
-/

/-! ## Character classes (JavaScript regexes `\s` and `\w`) -/

/-- JavaScript `\s` / `String.prototype.trim` white-space set:
space, tab, LF, VT, FF, CR, NBSP, Ogham space, the U+2000 block,
LS, PS, NNBSP, MMSP, ideographic space and BOM. -/
def isJsWs (c : Char) : Bool :=
  c.toNat == 32 || (9 ≤ c.toNat && c.toNat ≤ 13) || c.toNat == 160 ||
  c.toNat == 5760 || (8192 ≤ c.toNat && c.toNat ≤ 8202) ||
  c.toNat == 8232 || c.toNat == 8233 || c.toNat == 8239 ||
  c.toNat == 8287 || c.toNat == 12288 || c.toNat == 65279

/-- JavaScript `\w` = `[A-Za-z0-9_]` (ASCII only). -/
def isWordChar (c : Char) : Bool :=
  (48 ≤ c.toNat && c.toNat ≤ 57) || (65 ≤ c.toNat && c.toNat ≤ 90) ||
  (97 ≤ c.toNat && c.toNat ≤ 122) || c.toNat == 95

/-- Lower-case `\w` characters: `[a-z0-9_]`. -/
def isLowerWordChar (c : Char) : Bool :=
  (48 ≤ c.toNat && c.toNat ≤ 57) || (97 ≤ c.toNat && c.toNat ≤ 122) ||
  c.toNat == 95

/-! ## `toLowerCase` and the Vietnamese diacritic folds -/

/-- Upper-case → lower-case table for the Vietnamese precomposed letters
appearing (lower-cased) in the source's diacritic-fold regexes and `Đ`.
Together with the ASCII branch of `toLowerChar` this models
`String.prototype.toLowerCase` on every code point the normalization
pipeline distinguishes; other code points are left unchanged (they are
neither ASCII word characters nor fold-table members, so the punctuation
strip erases them exactly as it would erase their lower-case forms). -/
def vietLowerTable : List (Char × Char) :=
  [('Á','á'),('À','à'),('Ả','ả'),('Ã','ã'),('Ạ','ạ'),('Ă','ă'),('Ắ','ắ'),
   ('Ằ','ằ'),('Ẳ','ẳ'),('Ẵ','ẵ'),('Ặ','ặ'),('Â','â'),('Ấ','ấ'),('Ầ','ầ'),
   ('Ẩ','ẩ'),('Ẫ','ẫ'),('Ậ','ậ'),
   ('É','é'),('È','è'),('Ẻ','ẻ'),('Ẽ','ẽ'),('Ẹ','ẹ'),('Ê','ê'),('Ế','ế'),
   ('Ề','ề'),('Ể','ể'),('Ễ','ễ'),('Ệ','ệ'),
   ('Í','í'),('Ì','ì'),('Ỉ','ỉ'),('Ĩ','ĩ'),('Ị','ị'),
   ('Ó','ó'),('Ò','ò'),('Ỏ','ỏ'),('Õ','õ'),('Ọ','ọ'),('Ô','ô'),('Ố','ố'),
   ('Ồ','ồ'),('Ổ','ổ'),('Ỗ','ỗ'),('Ộ','ộ'),('Ơ','ơ'),('Ớ','ớ'),('Ờ','ờ'),
   ('Ở','ở'),('Ỡ','ỡ'),('Ợ','ợ'),
   ('Ú','ú'),('Ù','ù'),('Ủ','ủ'),('Ũ','ũ'),('Ụ','ụ'),('Ư','ư'),('Ứ','ứ'),
   ('Ừ','ừ'),('Ử','ử'),('Ữ','ữ'),('Ự','ự'),
   ('Ý','ý'),('Ỳ','ỳ'),('Ỷ','ỷ'),('Ỹ','ỹ'),('Ỵ','ỵ'),
   ('Đ','đ')]

/-- Per-character model of `text.toLowerCase()` (see `vietLowerTable`). -/
def toLowerChar (c : Char) : Char :=
  if 65 ≤ c.toNat ∧ c.toNat ≤ 90 then Char.ofNat (c.toNat + 32)
  else ((vietLowerTable.find? (fun p => p.1 == c)).map Prod.snd).getD c

/-- The seven `.replace(/[...]/g, base)` diacritic folds of `normalizeText`,
combined into one character map.  The seven character classes are pairwise
disjoint and no fold target occurs in a later class, so applying the seven
regex replacements in sequence equals one simultaneous per-character map. -/
def vietFoldTable : List (Char × Char) :=
  [('á','a'),('à','a'),('ả','a'),('ã','a'),('ạ','a'),('ă','a'),('ắ','a'),
   ('ằ','a'),('ẳ','a'),('ẵ','a'),('ặ','a'),('â','a'),('ấ','a'),('ầ','a'),
   ('ẩ','a'),('ẫ','a'),('ậ','a'),
   ('é','e'),('è','e'),('ẻ','e'),('ẽ','e'),('ẹ','e'),('ê','e'),('ế','e'),
   ('ề','e'),('ể','e'),('ễ','e'),('ệ','e'),
   ('í','i'),('ì','i'),('ỉ','i'),('ĩ','i'),('ị','i'),
   ('ó','o'),('ò','o'),('ỏ','o'),('õ','o'),('ọ','o'),('ô','o'),('ố','o'),
   ('ồ','o'),('ổ','o'),('ỗ','o'),('ộ','o'),('ơ','o'),('ớ','o'),('ờ','o'),
   ('ở','o'),('ỡ','o'),('ợ','o'),
   ('ú','u'),('ù','u'),('ủ','u'),('ũ','u'),('ụ','u'),('ư','u'),('ứ','u'),
   ('ừ','u'),('ử','u'),('ữ','u'),('ự','u'),
   ('ý','y'),('ỳ','y'),('ỷ','y'),('ỹ','y'),('ỵ','y'),
   ('đ','d')]

/-- One step of the diacritic folds (see `vietFoldTable`). -/
def foldChar (c : Char) : Char :=
  ((vietFoldTable.find? (fun p => p.1 == c)).map Prod.snd).getD c

/-- `.replace(/[^\w\s]/g, ' ')`: every character that is neither a word
character nor white space becomes a single space. -/
def stripChar (c : Char) : Char :=
  if isWordChar c || isJsWs c then c else ' '

/-! ## White-space plumbing: `.trim()` and `.replace(/\s+/g, ' ')` -/

/-- Drop trailing JavaScript white space (right half of `trim`). -/
def dropTrailingWs : List Char → List Char
  | [] => []
  | c :: rest =>
    match dropTrailingWs rest with
    | [] => if isJsWs c then [] else [c]
    | r => c :: r

/-- `String.prototype.trim` on the character list. -/
def jsTrim (l : List Char) : List Char :=
  dropTrailingWs (l.dropWhile isJsWs)

/-- `.replace(/\s+/g, ' ')`: each maximal run of white space becomes one
space. -/
def collapseWs : List Char → List Char
  | [] => []
  | [c] => if isJsWs c then [' '] else [c]
  | c :: d :: rest =>
    if isJsWs c then
      if isJsWs d then collapseWs (d :: rest)
      else ' ' :: collapseWs (d :: rest)
    else c :: collapseWs (d :: rest)

/-- Specification predicate: no two adjacent white-space characters
(used to state that normalized output separates tokens by single
spaces). -/
def noTwoSpaces : List Char → Bool
  | c :: d :: rest => !(isJsWs c && isJsWs d) && noTwoSpaces (d :: rest)
  | _ => true

/-! ## `normalizeText` -/

/-- The normalization pipeline on character lists, in source order:
lower-case, trim, collapse white space, fold diacritics, strip
punctuation to spaces, collapse white space again, trim again. -/
def normalizePipe (l : List Char) : List Char :=
  jsTrim (collapseWs (((collapseWs (jsTrim (l.map toLowerChar))).map
    foldChar).map stripChar))

/-- `normalizeText` as shared by every chatbot variant (the guard
`if (!text) return ''` catches exactly the empty string among strings). -/
def normalizeText (s : String) : String :=
  if s = "" then "" else String.mk (normalizePipe s.data)

/-! ## Tokenization and the two lexical scorers -/

/-- `String.prototype.split(sep)` for a single-character separator. -/
def splitOnChar (sep : Char) : List Char → List (List Char)
  | [] => [[]]
  | c :: rest =>
    match splitOnChar sep rest with
    | [] => [[c]]          -- unreachable: split never returns []
    | h :: t => if c = sep then [] :: h :: t else (c :: h) :: t

/-- `s.split(' ').filter(word => word.length > 0)`. -/
def splitWords (s : String) : List String :=
  ((splitOnChar ' ' s.data).map String.mk).filter (fun w => 0 < w.length)

/-- `this.normalizeText(x).split(' ').filter(word => word.length > 0)`:
the usable tokens of one input of the Jaccard scorer. -/
def usableTokens (s : String) : List String :=
  splitWords (normalizeText s)

/-- `[...querySet].filter(x => targetSet.has(x))` of `calculateSimilarity`.
JavaScript `Set` iterates in insertion order while `List.dedup` keeps the
last occurrence of a duplicate; `calculateSimilarity` only ever reads the
*sizes* of these collections, on which the two agree. -/
def jaccardIntersection (q t : String) : List String :=
  (usableTokens q).dedup.filter (fun w => (usableTokens t).dedup.contains w)

/-- `new Set([...querySet, ...targetSet])` of `calculateSimilarity`. -/
def jaccardUnion (q t : String) : List String :=
  ((usableTokens q).dedup ++ (usableTokens t).dedup).dedup

/-- `calculateSimilarity` (identical in every variant): Jaccard index of
the two token sets, guarded by `if (union.size === 0) return 0`. -/
def calculateSimilarity (q t : String) : ℚ :=
  if (jaccardUnion q t).length = 0 then 0
  else ((jaccardIntersection q t).length : ℚ) / ((jaccardUnion q t).length : ℚ)

/-- `calculateWordOrderMatch` of the simple word-match variant: count the
query words present in the target word set, divide by the longer word
count, with a bonus `1.0` when every word of both sides matched. -/
def calculateWordOrderMatch (query target : String) : ℚ :=
  if (splitWords query).length = 0 ∨ (splitWords target).length = 0 then 0
  else if ((splitWords query).filter
            (fun w => (splitWords target).contains w)).length
            = (splitWords query).length ∧
          ((splitWords query).filter
            (fun w => (splitWords target).contains w)).length
            = (splitWords target).length then 1
  else (((splitWords query).filter
          (fun w => (splitWords target).contains w)).length : ℚ) /
        ((max (splitWords query).length (splitWords target).length : ℕ) : ℚ)

/-! ## Confidence banding -/

/-- `getConfidenceLevel` (staged variants). -/
def getConfidenceLevel (similarity : ℚ) : ℚ :=
  if (1 : ℚ) ≤ similarity then 1
  else if (0.9 : ℚ) ≤ similarity then 0.95
  else if (0.8 : ℚ) ≤ similarity then 0.85
  else if (0.7 : ℚ) ≤ similarity then 0.75
  else similarity

/-- `getConfidenceFromScore` (simple word-match variant); character for
character the same banding as `getConfidenceLevel`. -/
def getConfidenceFromScore (score : ℚ) : ℚ :=
  if (1 : ℚ) ≤ score then 1
  else if (0.9 : ℚ) ≤ score then 0.95
  else if (0.8 : ℚ) ≤ score then 0.85
  else if (0.7 : ℚ) ≤ score then 0.75
  else score

/-! ## Cosine similarity -/

/-- Integer square root by Newton iteration with explicit fuel
(structural, hence kernel-computable). -/
def sqrtAux (n : Nat) : Nat → Nat → Nat
  | _, 0 => 0
  | guess, fuel + 1 =>
    let next := (guess + n / guess) / 2
    if next < guess then sqrtAux n next fuel else guess

/-- Integer square root (exact on perfect squares). -/
def natSqrt (n : Nat) : Nat :=
  if n ≤ 1 then n else sqrtAux n n n

/-- Model of `Math.sqrt` on the rationals produced by the pipeline; exact
whenever the reduced numerator and denominator are perfect squares. -/
def ratSqrt (q : ℚ) : ℚ :=
  (natSqrt q.num.toNat : ℚ) / (natSqrt q.den : ℚ)

/-- `cosineSimilarity(a, b)`: dot product over the norms, `0` when either
norm is `0`.  The loop runs over the indices of `a`; the embedded lists
are paired positionally (all call sites use equal-length vectors — in
JavaScript a shorter `b` would poison the sums with `NaN`). -/
def cosineSimilarity (a b : List ℚ) : ℚ :=
  let dotProduct := ((a.zip b).map (fun p => p.1 * p.2)).sum
  let normA := (a.map (fun x => x * x)).sum
  let normB := ((b.take a.length).map (fun x => x * x)).sum
  if normA = 0 ∨ normB = 0 then 0
  else dotProduct / (ratSqrt normA * ratSqrt normB)

/-! ## Data model -/

/-- A `chatbot_data` document.  `questions` is canonicalized to a list of
strings (the strategies accept both the array and the comma-joined string
shape and normalize to this).  `category = ""` models a missing/falsy
category field, `embedding = none` a document without an embedding. -/
structure Record where
  id : String
  questions : List String
  normalized_questions : List String
  keywords : List String
  answer : String
  category : String
  embedding : Option (List ℚ)

/-- A strategy result object. Fields absent from a JavaScript result
object are the defaults (`""` / `0`). -/
structure MatchResult where
  found : Bool
  answer : String := ""
  category : String := ""
  originalQuestion : String := ""
  docId : String := ""
  similarity : ℚ := 0
  confidence : ℚ := 0
  matchType : String := ""

/-- JavaScript `x || d` for numbers in the pipeline (`0` is falsy). -/
def jsOr (x d : ℚ) : ℚ := if x = 0 then d else x

/-- JavaScript `s || d` for strings (`""` is falsy), e.g.
`data.category || 'general'`. -/
def jsOrStr (s d : String) : String := if s = "" then d else s

/-- `question.split(',').map(q => q.trim())`. -/
def splitComma (s : String) : List String :=
  ((splitOnChar ',' s.data).map String.mk).map (fun q => String.mk (jsTrim q.data))

/-! ## Exact-match strategy of the full-iteration variant (`findExactMatch`
scanning every document, every question, every comma-separated alias) -/

namespace Exact0

/-- Inner keyword loop: first alias whose normalization equals the
normalized query. -/
def keywordHit (normMsg : String) : List String → Option String
  | [] => none
  | k :: ks =>
    if normalizeText k = normMsg then some k else keywordHit normMsg ks

/-- Question loop: skip falsy questions (`if (!question) continue`), split
each question on commas and look for an alias hit. -/
def questionHit (normMsg : String) : List String → Option String
  | [] => none
  | q :: qs =>
    if q = "" then questionHit normMsg qs
    else
      match keywordHit normMsg (splitComma q) with
      | some k => some k
      | none => questionHit normMsg qs

/-- Document loop: skip documents without an answer
(`if (... || !data.answer) continue`); on the first alias hit return the
exact-match result (`similarity = confidence = 1.0`). -/
def scanRecords (normMsg : String) : List Record → MatchResult
  | [] => { found := false, category := "no_match", matchType := "none" }
  | r :: rs =>
    if r.answer = "" then scanRecords normMsg rs
    else
      match questionHit normMsg r.questions with
      | some k =>
        { found := true, answer := r.answer,
          category := jsOrStr r.category "general", originalQuestion := k,
          docId := r.id, similarity := 1, confidence := 1,
          matchType := "exact" }
      | none => scanRecords normMsg rs

/-- `findExactMatch(userMessage)` of the full-iteration variant. -/
def findExactMatch (records : List Record) (userMessage : String) :
    MatchResult :=
  scanRecords (normalizeText userMessage) records

/-- The alias variants of a candidate list, flattened in iteration order:
documents in collection order, questions in array order, comma-separated
aliases left to right; documents with a falsy answer and falsy questions
are skipped exactly as the scan skips them. -/
def variants (records : List Record) : List (Record × String) :=
  records.flatMap (fun r =>
    if r.answer = "" then []
    else (r.questions.filter (fun q => q ≠ "")).flatMap
      (fun q => (splitComma q).map (fun k => (r, k))))

end Exact0

/-! ## The staged exact → similarity → semantic pipeline
(`handleRequest` of the semantic-search variant) -/

namespace Sem

/-- External collaborator touch points, in call order: a Firestore query
issued by a stage, an embedding-provider call, a `query_analytics` write. -/
inductive Ev where
  | exactQuery
  | lexicalQuery
  | embedCall
  | semanticQuery
  | logWrite
deriving DecidableEq, Repr

/-- `findExactMatch`: Firestore
`where('normalized_questions', 'array-contains', normalizedMessage), limit(1)`
— the first document (collection order) whose `normalized_questions`
contains the normalized query. -/
def findExactMatch (records : List Record) (userMessage : String) :
    MatchResult :=
  match records.find?
      (fun r => r.normalized_questions.contains (normalizeText userMessage)) with
  | some r =>
    { found := true, answer := r.answer,
      category := jsOrStr r.category "general",
      originalQuestion := r.questions.headD "", docId := r.id,
      confidence := 1, similarity := 1, matchType := "exact" }
  | none =>
    { found := false, category := "no_match", matchType := "none" }

/-- Best-match bookkeeping shared by the similarity and semantic scans. -/
structure Cand where
  answer : String
  category : String
  originalQuestion : String
  docId : String
  similarity : ℚ

/-- One question of one document in the similarity scan: skip falsy
questions, score with the Jaccard scorer, keep a strictly better score. -/
def simStep (normMsg : String) (r : Record) (acc : ℚ × Option Cand)
    (question : String) : ℚ × Option Cand :=
  if question = "" then acc
  else
    let similarity := calculateSimilarity normMsg question
    if acc.1 < similarity then
      (similarity,
        some { answer := r.answer, category := jsOrStr r.category "general",
               originalQuestion := question, docId := r.id,
               similarity := similarity })
    else acc

/-- The double `forEach` of `findSimilarityMatch`. -/
def simScan (normMsg : String) (docs : List Record) : ℚ × Option Cand :=
  docs.foldl (fun acc r => r.questions.foldl (simStep normMsg r) acc)
    (0, none)

/-- `findSimilarityMatch`: keyword-prefiltered
(`array-contains-any`, `limit(50)`) Jaccard scan, accepted when the banded
confidence reaches `0.75`.  An empty word list makes the Firestore call
throw, which the surrounding `catch` turns into the error result. -/
def findSimilarityMatch (records : List Record) (userMessage : String) :
    MatchResult :=
  let normalizedMessage := normalizeText userMessage
  let messageWords := splitWords normalizedMessage
  if messageWords = [] then
    { found := false, category := "error", matchType := "error" }
  else
    let candidates :=
      (records.filter
        (fun r => r.keywords.any (fun k => messageWords.contains k))).take 50
    if candidates.isEmpty then
      { found := false, category := "no_match", matchType := "none" }
    else
      let best := simScan normalizedMessage candidates
      let confidence := getConfidenceLevel best.1
      match best.2 with
      | some bm =>
        if (0.75 : ℚ) ≤ confidence then
          { found := true, answer := bm.answer, category := bm.category,
            originalQuestion := bm.originalQuestion, docId := bm.docId,
            similarity := best.1, confidence := confidence,
            matchType := "similarity" }
        else
          { found := false, category := "no_match", similarity := best.1,
            confidence := confidence, matchType := "insufficient" }
      | none =>
        -- best.1 = 0 here, so confidence = 0 < 0.75: the source reaches
        -- its `insufficient` branch with the same zero statistics.
        { found := false, category := "no_match", similarity := best.1,
          confidence := confidence, matchType := "insufficient" }

/-- One document of the semantic scan: skip documents without an
embedding, score by cosine similarity, keep a strictly better score
(`originalQuestion` is the document's first question). -/
def semStep (queryEmbedding : List ℚ) (acc : ℚ × Option Cand) (r : Record) :
    ℚ × Option Cand :=
  match r.embedding with
  | none => acc
  | some e =>
    let similarity := cosineSimilarity queryEmbedding e
    if acc.1 < similarity then
      (similarity,
        some { answer := r.answer, category := jsOrStr r.category "general",
               originalQuestion := r.questions.headD "", docId := r.id,
               similarity := similarity })
    else acc

/-- The `docs.forEach` of `findSemanticMatch` over `limit(5000)`. -/
def semanticBest (records : List Record) (queryEmbedding : List ℚ) :
    ℚ × Option Cand :=
  (records.take 5000).foldl (semStep queryEmbedding) (0, none)

/-- `findSemanticMatch`: embed the query, scan all documents with
embeddings, accept only at cosine similarity ≥ 0.80 ("higher threshold for
semantic match"); otherwise report the best similarity/confidence under
match-type `insufficient_semantic`. -/
def findSemanticMatch (records : List Record) (embed : String → List ℚ)
    (userMessage : String) : MatchResult :=
  let queryEmbedding := embed userMessage
  let best := semanticBest records queryEmbedding
  if (0.80 : ℚ) ≤ best.1 then
    match best.2 with
    | some bm =>
      { found := true, answer := bm.answer, category := bm.category,
        originalQuestion := bm.originalQuestion, docId := bm.docId,
        similarity := best.1, confidence := best.1, matchType := "semantic" }
    | none =>
      -- unreachable: a best score ≥ 0.80 > 0 implies a recorded candidate
      -- (in JavaScript this would throw on `bestMatch.answer` and the
      -- `catch` would return the `semantic_error` result).
      { found := false, category := "error", matchType := "semantic_error" }
  else
    { found := false, category := "no_match", similarity := best.1,
      confidence := best.1, matchType := "insufficient_semantic" }

/-- The response object `handleRequest` sends back. Fields a branch does
not set are the defaults (`""` / `0`); the wall-clock `timestamp` field is
outside the model. -/
structure ApiResponse where
  success : Bool
  error : String := ""
  response : String := ""
  confidence : ℚ := 0
  similarity : ℚ := 0
  category : String := ""
  matched_question : String := ""
  match_type : String := ""
  message : String := ""

/-- The `if (!userMessage)` short-circuit response. -/
def emptyQueryResponse : ApiResponse :=
  { success := false, error := "No message provided",
    response := "Vui lòng nhập câu hỏi của bạn", confidence := 0,
    category := "error" }

/-- Success response of step 1 (exact match found). -/
def exactSuccessResponse (exactResponse : MatchResult) : ApiResponse :=
  { success := true, response := exactResponse.answer, confidence := 1,
    category := exactResponse.category,
    matched_question := exactResponse.originalQuestion,
    match_type := "exact", similarity := 1 }

/-- Success response of step 2 (similarity match found). -/
def similaritySuccessResponse (similarityResponse : MatchResult) :
    ApiResponse :=
  { success := true, response := similarityResponse.answer,
    confidence := similarityResponse.confidence,
    similarity := similarityResponse.similarity,
    category := similarityResponse.category,
    matched_question := similarityResponse.originalQuestion,
    match_type := "similarity" }

/-- Success response of step 3 (semantic match found). -/
def semanticSuccessResponse (semanticResponse : MatchResult) : ApiResponse :=
  { success := true, response := semanticResponse.answer,
    confidence := semanticResponse.confidence,
    similarity := semanticResponse.similarity,
    category := semanticResponse.category,
    matched_question := semanticResponse.originalQuestion,
    match_type := "semantic" }

/-- Terminal not-found response: statistics come from the *semantic*
response only (`semanticResponse.confidence || 0`). -/
def noMatchResponse (semanticResponse : MatchResult) : ApiResponse :=
  { success := false, response := "",
    confidence := jsOr semanticResponse.confidence 0,
    similarity := jsOr semanticResponse.similarity 0,
    category := "no_match", match_type := "none",
    message := "No sufficient match found" }

/-- `handleRequest`: empty-query guard, then the three stages in order,
stopping at the first `found` result.  The returned event list records the
external collaborator calls actually made (each stage issues one Firestore
query, the semantic stage first calls the embedding provider, successes
write one analytics log entry). -/
def handleRequest (records : List Record) (embed : String → List ℚ)
    (userMessage : String) : ApiResponse × List Ev :=
  if userMessage = "" then (emptyQueryResponse, [])
  else
    let exactResponse := findExactMatch records userMessage
    if exactResponse.found then
      (exactSuccessResponse exactResponse, [Ev.exactQuery, Ev.logWrite])
    else
      let similarityResponse := findSimilarityMatch records userMessage
      if similarityResponse.found then
        (similaritySuccessResponse similarityResponse,
          [Ev.exactQuery, Ev.lexicalQuery, Ev.logWrite])
      else
        let semanticResponse := findSemanticMatch records embed userMessage
        if semanticResponse.found then
          (semanticSuccessResponse semanticResponse,
            [Ev.exactQuery, Ev.lexicalQuery, Ev.embedCall,
             Ev.semanticQuery, Ev.logWrite])
        else
          (noMatchResponse semanticResponse,
            [Ev.exactQuery, Ev.lexicalQuery, Ev.embedCall,
             Ev.semanticQuery])

end Sem

/-! ## The staged semantic variant's chunked full scan (strategy 3) -/

namespace Staged

/-- `findBestMatch(docs, queryEmbedding, matchType)`: best cosine match in
one document set; `found` is `bestSimilarity > 0`, `similarity` and
`confidence` are the best score (spread over the best candidate's fields,
or over nothing when no document had an embedding). -/
def findBestMatch (docs : List Record) (queryEmbedding : List ℚ)
    (matchType : String) : MatchResult :=
  let best := docs.foldl (fun acc r =>
    match r.embedding with
    | none => acc
    | some e =>
      let similarity := cosineSimilarity queryEmbedding e
      if acc.1 < similarity then
        (similarity,
          some ({ found := false, answer := r.answer,
                  category := jsOrStr r.category "general",
                  originalQuestion := r.questions.headD "", docId := r.id,
                  similarity := similarity, confidence := similarity,
                  matchType := matchType } : MatchResult))
      else acc) ((0 : ℚ), (none : Option MatchResult))
  match best.2 with
  | some bm =>
    { bm with found := if 0 < best.1 then true else false,
              similarity := best.1, confidence := best.1 }
  | none =>
    { found := if 0 < best.1 then true else false,
      similarity := best.1, confidence := best.1 }

/-- The paginated loop of `chunkedFullScan`: at most 9 chunks of 10000
documents, early exit at best similarity ≥ 0.80, stop on an empty chunk
(the 50 ms inter-chunk delay is timing, outside the model). -/
def chunkLoop (queryEmbedding : List ℚ) :
    Nat → List Record → ℚ → Option MatchResult → ℚ × Option MatchResult
  | 0, _, best, bm => (best, bm)
  | fuel + 1, recs, best, bm =>
    let docs := recs.take 10000
    if docs.isEmpty then (best, bm)
    else
      let chunkResult := findBestMatch docs queryEmbedding "semantic_full_scan"
      let best' := if best < chunkResult.similarity
                   then chunkResult.similarity else best
      let bm' := if best < chunkResult.similarity
                 then some chunkResult else bm
      if (0.80 : ℚ) ≤ best' then (best', bm')
      else chunkLoop queryEmbedding fuel (recs.drop 10000) best' bm'

/-- `chunkedFullScan`: accept the running best when it reaches **0.70**
(`if (bestSimilarity >= 0.70)`), else report `insufficient_full_scan`. -/
def chunkedFullScan (records : List Record) (queryEmbedding : List ℚ) :
    MatchResult :=
  let best := chunkLoop queryEmbedding 9 records 0 none
  if (0.70 : ℚ) ≤ best.1 then
    match best.2 with
    | some bm => { bm with found := true }
    | none => { found := true }   -- unreachable: 0.70 ≤ best forces a candidate
  else
    { found := false, similarity := best.1, confidence := best.1,
      matchType := "insufficient_full_scan" }

end Staged

/-! ## Concrete knowledge bases used by the examples below -/

/-- One stored record: question "hello world", no embedding. -/
def kbHelloWorld : List Record :=
  [{ id := "d1", questions := ["hello world"],
     normalized_questions := ["hello world"],
     keywords := ["hello", "world"], answer := "A", category := "general",
     embedding := none }]

/-- An embedding provider that is never consulted meaningfully. -/
def embedConst1 : String → List ℚ := fun _ => [1]

/-- One stored record with an exactly matching question "hi". -/
def kbHi : List Record :=
  [{ id := "d1", questions := ["hi"], normalized_questions := ["hi"],
     keywords := ["hi"], answer := "Hello!", category := "general",
     embedding := none }]

/-- An embedding provider returning the empty vector. -/
def embedEmpty : String → List ℚ := fun _ => []

/-- One stored record carrying the embedding `[72, 65]` (norm 97). -/
def kbEmb7265 : List Record :=
  [{ id := "d1", questions := ["q1"], normalized_questions := [],
     keywords := [], answer := "A", category := "c",
     embedding := some [72, 65] }]

/-- A query embedding with cosine similarity `72/97 ≈ 0.742` against
`[72, 65]`. -/
def embedUnitX : String → List ℚ := fun _ => [1, 0]

/-! # Theorems -/

/-! ## C3: the confidence mapper -/

/-- C3: the confidence mapper is the step function of the spec's table
(`s ≥ 1 ↦ 1`, `[0.9,1) ↦ 0.95`, `[0.8,0.9) ↦ 0.85`, `[0.7,0.8) ↦ 0.75`,
`s < 0.7 ↦ s`), it is monotonically non-decreasing on `[0,1]`,
`confidence 1 = 1` exactly, and the two textual copies of the mapper
(`getConfidenceLevel`, `getConfidenceFromScore`) agree. -/
theorem C3_confidence_bands (s t : ℚ) :
    ((1 : ℚ) ≤ s → getConfidenceLevel s = 1) ∧
    ((0.9 : ℚ) ≤ s ∧ s < 1 → getConfidenceLevel s = 0.95) ∧
    ((0.8 : ℚ) ≤ s ∧ s < 0.9 → getConfidenceLevel s = 0.85) ∧
    ((0.7 : ℚ) ≤ s ∧ s < 0.8 → getConfidenceLevel s = 0.75) ∧
    (s < 0.7 → getConfidenceLevel s = s) ∧
    (0 ≤ s → s ≤ t → t ≤ 1 →
      getConfidenceLevel s ≤ getConfidenceLevel t) ∧
    getConfidenceLevel 1 = 1 ∧
    getConfidenceFromScore s = getConfidenceLevel s := by
  refine ⟨fun h => ?_, fun h => ?_, fun h => ?_, fun h => ?_, fun h => ?_,
    fun h0 hst ht => ?_, ?_, ?_⟩ <;>
    (try obtain ⟨h1, h2⟩ := h) <;>
    simp only [getConfidenceLevel, getConfidenceFromScore] <;>
    split_ifs <;> first | rfl | linarith

/-- C3 witness: at `s = 0.9`, `t = 1` the band value is `0.95`,
monotonicity holds and `confidence 1 = 1`. -/
theorem C3_confidence_bands_witness :
    getConfidenceLevel 0.9 = 0.95 ∧
    getConfidenceLevel 0.9 ≤ getConfidenceLevel 1 ∧
    getConfidenceLevel 1 = 1 := by
  have h := C3_confidence_bands (0.9 : ℚ) 1
  exact ⟨h.2.1 ⟨by norm_num, by norm_num⟩,
    h.2.2.2.2.2.1 (by norm_num) (by norm_num) (by norm_num),
    h.2.2.2.2.2.2.1⟩

/-! ## C7: zero guards of the lexical scorers -/

/-- C7: the Jaccard scorer returns exactly `0` whenever either input
normalizes to zero usable tokens; the division by the union size is
guarded (`union = []` returns `0` outright, and the union is empty iff
both token lists are); the word-order scorer's own empty-side guard also
returns `0`. -/
theorem C7_zero_guards (q t : String) :
    (usableTokens q = [] ∨ usableTokens t = [] →
      calculateSimilarity q t = 0) ∧
    (jaccardUnion q t = [] → calculateSimilarity q t = 0) ∧
    (jaccardUnion q t = [] ↔ usableTokens q = [] ∧ usableTokens t = []) ∧
    (splitWords q = [] ∨ splitWords t = [] →
      calculateWordOrderMatch q t = 0) := by
  refine ⟨fun h => ?_, fun h => ?_, ?_, fun h => ?_⟩
  · have hI : jaccardIntersection q t = [] := by
      rcases h with h | h <;> simp [jaccardIntersection, h]
    rw [calculateSimilarity, hI]
    simp
  · rw [calculateSimilarity, h]
    simp
  · simp [jaccardUnion, List.dedup_eq_nil, List.append_eq_nil]
  · rw [calculateWordOrderMatch, if_pos]
    rcases h with h | h <;> simp [h]

/-- C7 witness: `"?"` normalizes to no usable tokens and scores `0`
against `"an toan"`; the empty string word-order-scores `0`. -/
theorem C7_zero_guards_witness :
    usableTokens "?" = [] ∧
    calculateSimilarity "?" "an toan" = 0 ∧
    calculateWordOrderMatch "" "abc" = 0 :=
  ⟨by decide, (C7_zero_guards "?" "an toan").1 (Or.inl (by decide)),
   (C7_zero_guards "" "abc").2.2.2 (Or.inl (by decide))⟩

/-! ## C4: symmetry of the lexical scorers -/

/-- Sizes of the dedup-filter intersection as a `Finset` cardinality. -/
theorem length_filter_contains (A B : List String) :
    (A.dedup.filter (fun w => B.dedup.contains w)).length
      = (A.toFinset ∩ B.toFinset).card := by
  rw [← List.toFinset_card_of_nodup (List.Nodup.filter _ (List.nodup_dedup A))]
  congr 1
  ext x
  simp [List.mem_filter, List.mem_dedup]

/-- Size of the dedup-append union as a `Finset` cardinality. -/
theorem length_dedup_append (A B : List String) :
    ((A.dedup ++ B.dedup).dedup).length
      = (A.toFinset ∪ B.toFinset).card := by
  rw [← List.toFinset_card_of_nodup (List.nodup_dedup _)]
  congr 1
  ext x
  simp [List.mem_dedup]

/-- C4 counterexample: the word-order scorer used by the simple
word-match variant is **not** symmetric — with the duplicated token input
`"a a"` against `"a"` it scores `1`, but `1/2` in the other order, so the
claim that every scorer the strategies use is symmetric fails. -/
theorem C4_counterexample :
    calculateWordOrderMatch "a a" "a" = 1 ∧
    calculateWordOrderMatch "a" "a a" = 1 / 2 ∧
    calculateWordOrderMatch "a a" "a" ≠ calculateWordOrderMatch "a" "a a" := by
  have h1 : splitWords "a a" = ["a", "a"] := by decide
  have h2 : splitWords "a" = ["a"] := by decide
  have h3 : (["a", "a"] : List String).filter
      (fun w => (["a"] : List String).contains w) = ["a", "a"] := by decide
  have h4 : (["a"] : List String).filter
      (fun w => (["a", "a"] : List String).contains w) = ["a"] := by decide
  refine ⟨?_, ?_, ?_⟩ <;>
    rw [calculateWordOrderMatch] <;>
    try rw [calculateWordOrderMatch]
  · rw [h1, h2, h3]
    norm_num
  · rw [h1, h2, h4]
    norm_num
  · rw [h1, h2, h3, h4]
    norm_num

/-- C4 amended: the set-based Jaccard scorer `calculateSimilarity` is
symmetric for every pair of strings (the word-order score is not, see the
counterexample). -/
theorem C4_jaccard_symmetric (a b : String) :
    calculateSimilarity a b = calculateSimilarity b a := by
  unfold calculateSimilarity jaccardUnion jaccardIntersection
  rw [length_filter_contains, length_filter_contains, length_dedup_append,
    length_dedup_append, Finset.inter_comm, Finset.union_comm]

/-! ## C2: short-circuiting of the escalation controller -/

/-- C2: for every non-empty query, if the exact stage finds a match the
controller returns that stage's result immediately — the only collaborator
events are the exact stage's store query and the analytics write, so the
lexical and semantic stages (and the embedding provider) never run; and
likewise a found lexical result prevents the embedding call and the
semantic stage's store query. -/
theorem C2_escalation_short_circuit (records : List Record)
    (embed : String → List ℚ) (msg : String) (hne : msg ≠ "") :
    ((Sem.findExactMatch records msg).found = true →
      Sem.handleRequest records embed msg =
        (Sem.exactSuccessResponse (Sem.findExactMatch records msg),
         [Sem.Ev.exactQuery, Sem.Ev.logWrite])) ∧
    ((Sem.findSimilarityMatch records msg).found = true →
      Sem.Ev.embedCall ∉ (Sem.handleRequest records embed msg).2 ∧
      Sem.Ev.semanticQuery ∉ (Sem.handleRequest records embed msg).2 ∧
      Sem.Ev.exactQuery ∈ (Sem.handleRequest records embed msg).2) := by
  constructor
  · intro h
    simp [Sem.handleRequest, hne, h]
  · intro h
    by_cases hex : (Sem.findExactMatch records msg).found = true
    · simp [Sem.handleRequest, hne, hex]
    · simp only [Bool.not_eq_true] at hex
      simp [Sem.handleRequest, hne, hex, h]

/-- C2 witness: on the knowledge base containing "hi", querying "hi" hits
the exact stage and the event trace is exactly store-query + log. -/
theorem C2_escalation_short_circuit_witness :
    Sem.handleRequest kbHi embedEmpty "hi" =
      (Sem.exactSuccessResponse (Sem.findExactMatch kbHi "hi"),
       [Sem.Ev.exactQuery, Sem.Ev.logWrite]) :=
  (C2_escalation_short_circuit kbHi embedEmpty "hi" (by decide)).1 (by decide)

/-! ## C8: the empty-query short circuit -/

/-- C8: an empty query makes `handleRequest` return the fixed
please-enter-a-question error response (`success = false`,
`confidence = 0`, `category = "error"`) with an empty collaborator trace:
neither the candidate store nor the embedding provider is contacted. -/
theorem C8_empty_query_short_circuit (records : List Record)
    (embed : String → List ℚ) (msg : String) (h : msg = "") :
    Sem.handleRequest records embed msg = (Sem.emptyQueryResponse, []) ∧
    Sem.emptyQueryResponse.success = false ∧
    Sem.emptyQueryResponse.confidence = 0 ∧
    Sem.emptyQueryResponse.category = "error" ∧
    Sem.emptyQueryResponse.response = "Vui lòng nhập câu hỏi của bạn" := by
  subst h
  exact ⟨by simp [Sem.handleRequest], rfl, rfl, rfl, rfl⟩

/-- C8 witness: the concrete empty query on a concrete store. -/
theorem C8_empty_query_short_circuit_witness :
    Sem.handleRequest kbHi embedEmpty "" = (Sem.emptyQueryResponse, []) :=
  (C8_empty_query_short_circuit kbHi embedEmpty "" rfl).1

/-! ## C1: statistics carried by the terminal not-found result -/

/-- Jaccard score of the counterexample query against the stored
question: 2 shared tokens of 3 distinct. -/
theorem calcSim_hello : calculateSimilarity "hello there" "hello world" = 1 / 3 := by
  have h3 : jaccardUnion "hello there" "hello world"
      = ["there", "hello", "world"] := by decide
  have h4 : jaccardIntersection "hello there" "hello world" = ["hello"] := by
    decide
  rw [calculateSimilarity, h3, h4]
  norm_num

/-- The lexical stage on the counterexample store: best similarity `1/3`,
below the acceptance threshold, reported as `insufficient`. -/
theorem simMatch_hello : Sem.findSimilarityMatch kbHelloWorld "hello there" =
    { found := false, category := "no_match", similarity := 1 / 3,
      confidence := 1 / 3, matchType := "insufficient" } := by
  have hn : normalizeText "hello there" = "hello there" := by decide
  have hw : splitWords "hello there" = ["hello", "there"] := by decide
  have hq : ("hello world" : String) ≠ "" := by decide
  rw [Sem.findSimilarityMatch, hn, hw]
  norm_num [kbHelloWorld, Sem.simScan, Sem.simStep, calcSim_hello,
    getConfidenceLevel, jsOrStr, hq, List.cons_ne_nil]

/-- The semantic stage on the counterexample store (no embeddings): best
similarity `0`, reported as `insufficient_semantic`. -/
theorem semMatch_hello : Sem.findSemanticMatch kbHelloWorld embedConst1
    "hello there" =
    { found := false, category := "no_match", similarity := 0,
      confidence := 0, matchType := "insufficient_semantic" } := by
  norm_num [Sem.findSemanticMatch, Sem.semanticBest, Sem.semStep,
    kbHelloWorld, embedConst1]

/-- The exact stage misses on the counterexample store. -/
theorem exact_hello_not_found :
    (Sem.findExactMatch kbHelloWorld "hello there").found = false := by decide

/-- C1 counterexample: with one stored record ("hello world", no
embedding) and the query "hello there", every stage fails; the lexical
stage observed similarity `1/3`, but the terminal not-found result carries
similarity and confidence `0` — the last (semantic) stage's best — so it
does **not** carry the highest similarity observed across all stages. -/
theorem C1_counterexample :
    (Sem.handleRequest kbHelloWorld embedConst1 "hello there").1.match_type
      = "none" ∧
    (Sem.handleRequest kbHelloWorld embedConst1 "hello there").1.similarity
      = 0 ∧
    (Sem.handleRequest kbHelloWorld embedConst1 "hello there").1.confidence
      = 0 ∧
    (Sem.findSimilarityMatch kbHelloWorld "hello there").similarity = 1 / 3 ∧
    (Sem.handleRequest kbHelloWorld embedConst1 "hello there").1.similarity
      < (Sem.findSimilarityMatch kbHelloWorld "hello there").similarity := by
  have h : Sem.handleRequest kbHelloWorld embedConst1 "hello there" =
      (Sem.noMatchResponse
        (Sem.findSemanticMatch kbHelloWorld embedConst1 "hello there"),
       [Sem.Ev.exactQuery, Sem.Ev.lexicalQuery, Sem.Ev.embedCall,
        Sem.Ev.semanticQuery]) := by
    simp [Sem.handleRequest, exact_hello_not_found, simMatch_hello,
      semMatch_hello]
  rw [h, simMatch_hello, semMatch_hello]
  norm_num [Sem.noMatchResponse, jsOr]

/-- C1 amended: when every stage fails on a non-empty query, the terminal
not-found result carries the best similarity and confidence observed by
the **last stage attempted** (the semantic stage, through
`semanticResponse.confidence || 0`), with match-type `"none"` — not the
best across all stages. -/
theorem C1_last_stage_statistics (records : List Record)
    (embed : String → List ℚ) (msg : String) (hne : msg ≠ "")
    (hex : (Sem.findExactMatch records msg).found = false)
    (hsim : (Sem.findSimilarityMatch records msg).found = false)
    (hsem : (Sem.findSemanticMatch records embed msg).found = false) :
    (Sem.handleRequest records embed msg).1.match_type = "none" ∧
    (Sem.handleRequest records embed msg).1.similarity =
      jsOr (Sem.findSemanticMatch records embed msg).similarity 0 ∧
    (Sem.handleRequest records embed msg).1.confidence =
      jsOr (Sem.findSemanticMatch records embed msg).confidence 0 := by
  simp [Sem.handleRequest, hne, hex, hsim, hsem, Sem.noMatchResponse]

/-- C1 witness: the amended statement instantiated on the counterexample
store, all three stage-failure hypotheses discharged by evaluation. -/
theorem C1_last_stage_statistics_witness :
    (Sem.handleRequest kbHelloWorld embedConst1 "hello there").1.match_type
      = "none" ∧
    (Sem.handleRequest kbHelloWorld embedConst1 "hello there").1.similarity =
      jsOr (Sem.findSemanticMatch kbHelloWorld embedConst1
        "hello there").similarity 0 ∧
    (Sem.handleRequest kbHelloWorld embedConst1 "hello there").1.confidence =
      jsOr (Sem.findSemanticMatch kbHelloWorld embedConst1
        "hello there").confidence 0 :=
  C1_last_stage_statistics kbHelloWorld embedConst1 "hello there"
    (by decide) exact_hello_not_found (by rw [simMatch_hello])
    (by rw [semMatch_hello])

/-! ## C9: semantic acceptance thresholds -/

/-- Square root of 9409 (= 97²) by the fuel Newton iteration. -/
theorem natSqrt_9409 : natSqrt 9409 = 97 := by decide

/-- `ratSqrt 1 = 1`. -/
theorem ratSqrt_one : ratSqrt 1 = 1 := by
  norm_num [ratSqrt, natSqrt]

/-- `ratSqrt 9409 = 97`. -/
theorem ratSqrt_9409 : ratSqrt 9409 = 97 := by
  have h1 : natSqrt (Int.toNat (9409 : ℤ)) = 97 := by decide
  have h2 : natSqrt 1 = 1 := rfl
  rw [ratSqrt]
  norm_num [Rat.num_ofNat, Rat.den_ofNat, h1, h2]

/-- Cosine similarity of the unit query embedding against `[72, 65]`
(norm 97) is exactly `72/97 ≈ 0.742`. -/
theorem cosine_7265 : cosineSimilarity [1, 0] [72, 65] = 72 / 97 := by
  norm_num [cosineSimilarity, ratSqrt_one, ratSqrt_9409]

/-- `findBestMatch` on the one-record embedding store. -/
theorem fbm_7265 : Staged.findBestMatch kbEmb7265 [1, 0] "semantic_full_scan" =
    { found := true, answer := "A", category := "c", originalQuestion := "q1",
      docId := "d1", similarity := 72 / 97, confidence := 72 / 97,
      matchType := "semantic_full_scan" } := by
  norm_num [Staged.findBestMatch, kbEmb7265, cosine_7265, jsOrStr,
    (by decide : ("c" : String) ≠ "")]

/-- `chunkedFullScan` on the one-record embedding store accepts its best
match of similarity `72/97`. -/
theorem chunked_7265 : Staged.chunkedFullScan kbEmb7265 [1, 0] =
    { found := true, answer := "A", category := "c", originalQuestion := "q1",
      docId := "d1", similarity := 72 / 97, confidence := 72 / 97,
      matchType := "semantic_full_scan" } := by
  have htake : kbEmb7265.take 10000 = kbEmb7265 := rfl
  have hdrop : kbEmb7265.drop 10000 = ([] : List Record) := rfl
  have hne : kbEmb7265.isEmpty = false := rfl
  have hloop : Staged.chunkLoop [1, 0] 9 kbEmb7265 0 none =
      (72 / 97,
        some (Staged.findBestMatch kbEmb7265 [1, 0] "semantic_full_scan")) := by
    rw [Staged.chunkLoop]
    norm_num [htake, hdrop, hne, fbm_7265, Staged.chunkLoop]
  rw [Staged.chunkedFullScan, hloop]
  norm_num [fbm_7265]

/-- The single-scan semantic stage on the same store: `72/97 < 0.80`, so
it reports `insufficient_semantic` with the best statistics. -/
theorem semMatch_7265 : Sem.findSemanticMatch kbEmb7265 embedUnitX "q" =
    { found := false, category := "no_match", similarity := 72 / 97,
      confidence := 72 / 97, matchType := "insufficient_semantic" } := by
  norm_num [Sem.findSemanticMatch, Sem.semanticBest, Sem.semStep, kbEmb7265,
    embedUnitX, cosine_7265]

/-- The semantic scan records a candidate whenever its best score is
positive. -/
theorem semFold_inv (qe : List ℚ) (l : List Record)
    (acc : ℚ × Option Sem.Cand) (h : 0 < acc.1 → acc.2.isSome = true) :
    0 < (l.foldl (Sem.semStep qe) acc).1 →
      (l.foldl (Sem.semStep qe) acc).2.isSome = true := by
  induction l generalizing acc with
  | nil => simpa using h
  | cons r rs ih =>
    rw [List.foldl_cons]
    apply ih
    cases hemb : r.embedding with
    | none => simpa [Sem.semStep, hemb] using h
    | some e =>
      simp only [Sem.semStep, hemb]
      split_ifs with hlt
      · simp
      · exact h

/-- Invariant of the chunk loop: a positive running best has a recorded
candidate, and the recorded candidate's similarity is the running best. -/
theorem chunkLoop_inv (qe : List ℚ) :
    ∀ (fuel : Nat) (recs : List Record) (best : ℚ) (bm : Option MatchResult),
    (0 < best → bm.isSome = true) →
    (∀ r, bm = some r → r.similarity = best) →
    (0 < (Staged.chunkLoop qe fuel recs best bm).1 →
      (Staged.chunkLoop qe fuel recs best bm).2.isSome = true) ∧
    (∀ r, (Staged.chunkLoop qe fuel recs best bm).2 = some r →
      r.similarity = (Staged.chunkLoop qe fuel recs best bm).1) := by
  intro fuel
  induction fuel with
  | zero =>
    intro recs best bm h1 h2
    exact ⟨h1, h2⟩
  | succ n ih =>
    intro recs best bm h1 h2
    by_cases hemp : (recs.take 10000).isEmpty = true
    · simpa [Staged.chunkLoop, hemp] using ⟨h1, h2⟩
    · simp only [Bool.not_eq_true] at hemp
      by_cases hup :
          best < (Staged.findBestMatch (recs.take 10000) qe
            "semantic_full_scan").similarity
      · by_cases hth : (0.80 : ℚ) ≤ (Staged.findBestMatch (recs.take 10000)
            qe "semantic_full_scan").similarity
        · simp only [Staged.chunkLoop, hemp, hup, hth, Bool.false_eq_true,
            if_false, if_true]
          refine ⟨fun _ => rfl, fun r hr => ?_⟩
          cases hr
          rfl
        · simp only [Staged.chunkLoop, hemp, hup, hth, Bool.false_eq_true,
            if_false, if_true]
          exact ih _ _ _ (fun _ => rfl) (fun r hr => by cases hr; rfl)
      · by_cases hth : (0.80 : ℚ) ≤ best
        · simp only [Staged.chunkLoop, hemp, hup, hth, Bool.false_eq_true,
            if_false, if_true]
          exact ⟨h1, h2⟩
        · simp only [Staged.chunkLoop, hemp, hup, hth, Bool.false_eq_true,
            if_false, if_true]
          exact ih _ _ _ h1 h2

/-- C9 counterexample: the chunked full scan of the staged semantic
variant accepts (`found = true`) a best cosine similarity of `72/97`,
which clears `0.70` but lies **below** `0.75` — so the semantic
acceptance threshold does not lie in `[0.75, 0.80]` as claimed. -/
theorem C9_counterexample :
    (Staged.chunkedFullScan kbEmb7265 [1, 0]).found = true ∧
    (Staged.chunkedFullScan kbEmb7265 [1, 0]).similarity = 72 / 97 ∧
    (0.70 : ℚ) ≤ 72 / 97 ∧ (72 / 97 : ℚ) < 0.75 := by
  rw [chunked_7265]
  norm_num

/-- C9 amended: the single-scan semantic stage accepts exactly when its
best cosine similarity reaches `0.80` (stricter than the lexical stage,
which accepts exactly at similarity `0.7` through the confidence bands)
and otherwise reports `insufficient_semantic` carrying the best
similarity and confidence; the staged variant's chunked full scan however
accepts already at `0.70`, so across variants the semantic acceptance
threshold lies in `[0.70, 0.80]`, not `[0.75, 0.80]`. -/
theorem C9_semantic_thresholds (records : List Record)
    (embed : String → List ℚ) (msg : String) (qe : List ℚ) :
    ((Sem.findSemanticMatch records embed msg).found = true ↔
      (0.80 : ℚ) ≤ (Sem.semanticBest records (embed msg)).1) ∧
    ((Sem.findSemanticMatch records embed msg).found = false →
      (Sem.findSemanticMatch records embed msg).matchType
        = "insufficient_semantic" ∧
      (Sem.findSemanticMatch records embed msg).similarity
        = (Sem.semanticBest records (embed msg)).1 ∧
      (Sem.findSemanticMatch records embed msg).confidence
        = (Sem.semanticBest records (embed msg)).1) ∧
    (∀ s : ℚ, (0.75 : ℚ) ≤ getConfidenceLevel s ↔ (0.7 : ℚ) ≤ s) ∧
    ((Staged.chunkedFullScan records qe).found = true →
      (0.70 : ℚ) ≤ (Staged.chunkedFullScan records qe).similarity) := by
  have hsome : (0.80 : ℚ) ≤ (Sem.semanticBest records (embed msg)).1 →
      (Sem.semanticBest records (embed msg)).2.isSome = true := by
    intro h
    have h0 : 0 < (Sem.semanticBest records (embed msg)).1 := by linarith
    rw [Sem.semanticBest] at h0 ⊢
    exact semFold_inv (embed msg) (records.take 5000) (0, none)
      (by norm_num) h0
  refine ⟨?_, ?_, ?_, ?_⟩
  · by_cases hth : (0.80 : ℚ) ≤ (Sem.semanticBest records (embed msg)).1
    · obtain ⟨bm, hbm⟩ := Option.isSome_iff_exists.mp (hsome hth)
      simp [Sem.findSemanticMatch, hth, hbm]
    · simp [Sem.findSemanticMatch, hth]
  · intro hf
    by_cases hth : (0.80 : ℚ) ≤ (Sem.semanticBest records (embed msg)).1
    · obtain ⟨bm, hbm⟩ := Option.isSome_iff_exists.mp (hsome hth)
      simp [Sem.findSemanticMatch, hth, hbm] at hf
    · simp [Sem.findSemanticMatch, hth]
  · intro s
    unfold getConfidenceLevel
    split_ifs <;> constructor <;> intro <;> linarith
  · intro hf
    have hinv := chunkLoop_inv qe 9 records 0 none (by norm_num) (by simp)
    by_cases hth : (0.70 : ℚ) ≤ (Staged.chunkLoop qe 9 records 0 none).1
    · have h0 : 0 < (Staged.chunkLoop qe 9 records 0 none).1 := by linarith
      obtain ⟨bm, hbm⟩ := Option.isSome_iff_exists.mp (hinv.1 h0)
      have hsim := hinv.2 bm hbm
      simp only [Staged.chunkedFullScan, hbm, hth, if_true, if_pos]
      simpa using hth.trans_eq hsim.symm
    · simp [Staged.chunkedFullScan, hth] at hf

/-- C9 witness: the amended statement instantiated on the one-record
embedding store, where the single-scan stage reports
`insufficient_semantic` with best `72/97`, the lexical acceptance
equivalence holds at `0.72`, and the accepted chunked scan's similarity
clears `0.70`. -/
theorem C9_semantic_thresholds_witness :
    (Sem.findSemanticMatch kbEmb7265 embedUnitX "q").matchType
      = "insufficient_semantic" ∧
    (Sem.findSemanticMatch kbEmb7265 embedUnitX "q").similarity
      = (Sem.semanticBest kbEmb7265 (embedUnitX "q")).1 ∧
    (Sem.findSemanticMatch kbEmb7265 embedUnitX "q").confidence
      = (Sem.semanticBest kbEmb7265 (embedUnitX "q")).1 ∧
    ((0.75 : ℚ) ≤ getConfidenceLevel 0.72 ↔ (0.7 : ℚ) ≤ 0.72) ∧
    (0.70 : ℚ) ≤ (Staged.chunkedFullScan kbEmb7265 [1, 0]).similarity := by
  have h := C9_semantic_thresholds kbEmb7265 embedUnitX "q" [1, 0]
  have hnf : (Sem.findSemanticMatch kbEmb7265 embedUnitX "q").found
      = false := by
    rw [semMatch_7265]
  have hft : (Staged.chunkedFullScan kbEmb7265 [1, 0]).found = true := by
    rw [chunked_7265]
  obtain ⟨ha, hb, hc⟩ := h.2.1 hnf
  exact ⟨ha, hb, hc, h.2.2.1 0.72, h.2.2.2 hft⟩

/-! ## C6: the exact-match strategy picks the first equal variant -/

/-- The keyword loop is `find?` over the comma-split aliases. -/
theorem keywordHit_eq_find? (nm : String) (ks : List String) :
    Exact0.keywordHit nm ks = ks.find? (fun k => normalizeText k == nm) := by
  induction ks with
  | nil => rfl
  | cons k ks ih =>
    by_cases h : normalizeText k = nm
    · simp [Exact0.keywordHit, h]
    · simp [Exact0.keywordHit, h, ih]

/-- The question loop is `find?` over the flattened alias list of one
record. -/
theorem questionHit_eq_find? (nm : String) (qs : List String) :
    Exact0.questionHit nm qs =
      ((qs.filter (fun q => q ≠ "")).flatMap splitComma).find?
        (fun k => normalizeText k == nm) := by
  induction qs with
  | nil => rfl
  | cons q qs ih =>
    by_cases hq : q = ""
    · simp [Exact0.questionHit, hq, ih]
    · cases hk : Exact0.keywordHit nm (splitComma q) with
      | some k =>
        rw [keywordHit_eq_find?] at hk
        simp [Exact0.questionHit, hq, keywordHit_eq_find?, hk,
          List.filter_cons, List.flatMap_cons, List.find?_append]
      | none =>
        rw [keywordHit_eq_find?] at hk
        simp [Exact0.questionHit, hq, keywordHit_eq_find?, hk, ih,
          List.filter_cons, List.flatMap_cons, List.find?_append]

/-- C6: the exact-match strategy returns precisely the **first** alias
variant — record iteration order first, question order and within-question
comma order next — whose normalized form equals the normalized query, as
a found-result with `similarity = confidence = 1` and match-type
`"exact"`; when no variant is equal it returns `found = false`. -/
theorem C6_exact_first_match (records : List Record) (msg : String) :
    Exact0.findExactMatch records msg =
      match (Exact0.variants records).find?
          (fun v => normalizeText v.2 == normalizeText msg) with
      | some v =>
        { found := true, answer := v.1.answer,
          category := jsOrStr v.1.category "general",
          originalQuestion := v.2, docId := v.1.id, similarity := 1,
          confidence := 1, matchType := "exact" }
      | none =>
        { found := false, category := "no_match", matchType := "none" } := by
  rw [Exact0.findExactMatch]
  induction records with
  | nil => rfl
  | cons r rs ih =>
    rw [Exact0.scanRecords]
    by_cases ha : r.answer = ""
    · have hv : Exact0.variants (r :: rs) = Exact0.variants rs := by
        rw [Exact0.variants, List.flatMap_cons, if_pos ha, List.nil_append]
        rfl
      rw [if_pos ha, hv]
      exact ih
    · have hv : Exact0.variants (r :: rs)
          = (((r.questions.filter (fun q => q ≠ "")).flatMap splitComma).map
              (fun k => (r, k))) ++ Exact0.variants rs := by
        rw [Exact0.variants, List.flatMap_cons, if_neg ha, List.map_flatMap]
        rfl
      have hcomp : ((fun v : Record × String =>
          normalizeText v.2 == normalizeText msg) ∘ fun k => (r, k))
          = fun k => normalizeText k == normalizeText msg := rfl
      rw [if_neg ha]
      cases hq : Exact0.questionHit (normalizeText msg) r.questions with
      | some k =>
        rw [questionHit_eq_find?] at hq
        rw [hv, List.find?_append, List.find?_map, hcomp, hq]
        rfl
      | none =>
        rw [questionHit_eq_find?] at hq
        rw [hv, List.find?_append, List.find?_map, hcomp, hq]
        simpa using ih

theorem ws_toNat {c : Char} (h : isJsWs c = true) :
    c.toNat = 32 ∨ (9 ≤ c.toNat ∧ c.toNat ≤ 13) ∨ 159 < c.toNat := by
  simp only [isJsWs, Bool.or_eq_true, Bool.and_eq_true, decide_eq_true_eq,
    beq_iff_eq] at h
  omega

theorem lw_not_ws {c : Char} (h : isLowerWordChar c = true) :
    isJsWs c = false := by
  cases hws : isJsWs c with
  | false => rfl
  | true =>
    exfalso
    have h1 := ws_toNat hws
    simp only [isLowerWordChar, Bool.or_eq_true, Bool.and_eq_true,
      decide_eq_true_eq, beq_iff_eq] at h
    omega

theorem lw_isWord {c : Char} (h : isLowerWordChar c = true) :
    isWordChar c = true := by
  simp only [isLowerWordChar, Bool.or_eq_true, Bool.and_eq_true,
    decide_eq_true_eq, beq_iff_eq] at h
  simp only [isWordChar, Bool.or_eq_true, Bool.and_eq_true,
    decide_eq_true_eq, beq_iff_eq]
  omega

theorem lw_not_upper {c : Char} (h : isLowerWordChar c = true) :
    ¬(65 ≤ c.toNat ∧ c.toNat ≤ 90) := by
  simp only [isLowerWordChar, Bool.or_eq_true, Bool.and_eq_true,
    decide_eq_true_eq, beq_iff_eq] at h
  omega

theorem lw_lt128 {c : Char} (h : isLowerWordChar c = true) :
    c.toNat < 128 := by
  simp only [isLowerWordChar, Bool.or_eq_true, Bool.and_eq_true,
    decide_eq_true_eq, beq_iff_eq] at h
  omega

theorem word_notUpper_lower {c : Char} (hw : isWordChar c = true)
    (hu : ¬(65 ≤ c.toNat ∧ c.toNat ≤ 90)) : isLowerWordChar c = true := by
  simp only [isWordChar, Bool.or_eq_true, Bool.and_eq_true,
    decide_eq_true_eq, beq_iff_eq] at hw
  simp only [isLowerWordChar, Bool.or_eq_true, Bool.and_eq_true,
    decide_eq_true_eq, beq_iff_eq]
  omega

-- table facts
theorem vlt_keys_big : ∀ p ∈ vietLowerTable, 127 < p.1.toNat := by decide

theorem vlt_vals_big : ∀ p ∈ vietLowerTable, 127 < p.2.toNat := by decide

theorem vft_keys_big : ∀ p ∈ vietFoldTable, 127 < p.1.toNat := by decide

theorem vft_keys_not_ws : ∀ p ∈ vietFoldTable, isJsWs p.1 = false := by decide

theorem vft_vals_lower : ∀ p ∈ vietFoldTable,
    isLowerWordChar p.2 = true := by decide

theorem find?_beq_none {α : Type} (tab : List (Char × α)) (c : Char)
    (h : ∀ p ∈ tab, p.1 ≠ c) :
    tab.find? (fun p => p.1 == c) = none := by
  rw [List.find?_eq_none]
  intro p hp
  simp only [beq_iff_eq]
  exact h p hp

-- toLowerChar
theorem toLowerChar_fix {c : Char}
    (h : isLowerWordChar c = true ∨ c = ' ') : toLowerChar c = c := by
  have hlt : c.toNat < 128 := by
    rcases h with h | h
    · exact lw_lt128 h
    · subst h; decide
  have hup : ¬(65 ≤ c.toNat ∧ c.toNat ≤ 90) := by
    rcases h with h | h
    · exact lw_not_upper h
    · subst h; decide
  rw [toLowerChar, if_neg hup, find?_beq_none]
  · rfl
  · intro p hp he
    have := vlt_keys_big p hp
    rw [he] at this
    omega

theorem char_toNat_ofNat_add32 {c : Char} (h1 : 65 ≤ c.toNat)
    (h2 : c.toNat ≤ 90) : (Char.ofNat (c.toNat + 32)).toNat = c.toNat + 32 := by
  set n := c.toNat with hn
  interval_cases n <;> decide

theorem toLowerChar_not_upper (c : Char) :
    ¬(65 ≤ (toLowerChar c).toNat ∧ (toLowerChar c).toNat ≤ 90) := by
  rw [toLowerChar]
  by_cases hup : 65 ≤ c.toNat ∧ c.toNat ≤ 90
  · rw [if_pos hup]
    rw [char_toNat_ofNat_add32 hup.1 hup.2]
    omega
  · rw [if_neg hup]
    cases hf : vietLowerTable.find? (fun p => p.1 == c) with
    | none => exact hup
    | some p =>
      have hmem := List.mem_of_find?_eq_some hf
      have := vlt_vals_big p hmem
      show ¬(65 ≤ p.2.toNat ∧ p.2.toNat ≤ 90)
      omega

-- foldChar
theorem foldChar_fix {c : Char}
    (h : isLowerWordChar c = true ∨ c = ' ') : foldChar c = c := by
  have hlt : c.toNat < 128 := by
    rcases h with h | h
    · exact lw_lt128 h
    · subst h; decide
  rw [foldChar, find?_beq_none]
  · rfl
  · intro p hp he
    have := vft_keys_big p hp
    rw [he] at this
    omega

theorem foldChar_shape (c : Char) :
    foldChar c = c ∨ isLowerWordChar (foldChar c) = true := by
  rw [foldChar]
  cases hf : vietFoldTable.find? (fun p => p.1 == c) with
  | none => exact Or.inl rfl
  | some p =>
    right
    have hmem := List.mem_of_find?_eq_some hf
    simpa using vft_vals_lower p hmem

theorem foldChar_ws {c : Char} (h : isJsWs c = true) : foldChar c = c := by
  rw [foldChar, find?_beq_none]
  · rfl
  · intro p hp he
    have := vft_keys_not_ws p hp
    rw [he, h] at this
    cases this

-- stripChar
theorem stripChar_fix {c : Char}
    (h : isLowerWordChar c = true ∨ c = ' ') : stripChar c = c := by
  rcases h with h | h
  · rw [stripChar, if_pos]
    rw [lw_isWord h]
    rfl
  · subst h; decide

theorem stripChar_shape (c : Char) :
    (isWordChar c = true ∧ stripChar c = c) ∨
    (isJsWs c = true ∧ stripChar c = c) ∨ stripChar c = ' ' := by
  rw [stripChar]
  by_cases hw : isWordChar c = true
  · exact Or.inl ⟨hw, by rw [if_pos]; rw [hw]; rfl⟩
  · by_cases hs : isJsWs c = true
    · refine Or.inr (Or.inl ⟨hs, ?_⟩)
      rw [if_pos]
      rw [hs, Bool.or_true]
    · refine Or.inr (Or.inr ?_)
      rw [if_neg]
      simp [Bool.or_eq_true, hw, hs]

-- generic list helpers
theorem map_fix {f : Char → Char} {l : List Char}
    (h : ∀ c ∈ l, f c = c) : l.map f = l := by
  induction l with
  | nil => rfl
  | cons c rest ih =>
    rw [List.map_cons, h c (List.mem_cons_self c rest),
      ih (fun d hd => h d (List.mem_cons_of_mem c hd))]

theorem noTwoSpaces_tail {c : Char} {l : List Char}
    (h : noTwoSpaces (c :: l) = true) : noTwoSpaces l = true := by
  cases l with
  | nil => rfl
  | cons d rest =>
    rw [noTwoSpaces] at h
    exact (Bool.and_eq_true_iff.mp h).2

theorem noTwoSpaces_head {c d : Char} {l : List Char}
    (h : noTwoSpaces (c :: d :: l) = true) :
    ¬(isJsWs c = true ∧ isJsWs d = true) := by
  rw [noTwoSpaces] at h
  have h1 := (Bool.and_eq_true_iff.mp h).1
  intro ⟨ha, hb⟩
  rw [ha, hb] at h1
  cases h1

-- collapseWs
theorem collapseWs_mem {c : Char} {l : List Char}
    (h : c ∈ collapseWs l) : c = ' ' ∨ (c ∈ l ∧ isJsWs c = false) := by
  induction l with
  | nil => cases h
  | cons a rest ih =>
    cases rest with
    | nil =>
      rw [collapseWs] at h
      by_cases ha : isJsWs a = true
      · rw [if_pos ha] at h
        left
        simpa using h
      · rw [if_neg ha] at h
        right
        simp only [List.mem_singleton] at h
        subst h
        exact ⟨List.mem_cons_self _ _, by simpa using ha⟩
    | cons b rest2 =>
      rw [collapseWs] at h
      by_cases ha : isJsWs a = true
      · rw [if_pos ha] at h
        by_cases hb : isJsWs b = true
        · rw [if_pos hb] at h
          rcases ih h with h1 | ⟨h1, h2⟩
          · exact Or.inl h1
          · exact Or.inr ⟨List.mem_cons_of_mem _ h1, h2⟩
        · rw [if_neg hb] at h
          rcases List.mem_cons.mp h with h1 | h1
          · exact Or.inl h1
          · rcases ih h1 with h2 | ⟨h2, h3⟩
            · exact Or.inl h2
            · exact Or.inr ⟨List.mem_cons_of_mem _ h2, h3⟩
      · rw [if_neg ha] at h
        rcases List.mem_cons.mp h with h1 | h1
        · subst h1
          exact Or.inr ⟨List.mem_cons_self _ _, by simpa using ha⟩
        · rcases ih h1 with h2 | ⟨h2, h3⟩
          · exact Or.inl h2
          · exact Or.inr ⟨List.mem_cons_of_mem _ h2, h3⟩

theorem collapseWs_head_ws {l : List Char} {c : Char}
    (h : (collapseWs l).head? = some c) (hws : isJsWs c = true) :
    ∃ d, l.head? = some d ∧ isJsWs d = true := by
  induction l with
  | nil => cases h
  | cons a rest ih =>
    cases rest with
    | nil =>
      rw [collapseWs] at h
      by_cases ha : isJsWs a = true
      · exact ⟨a, rfl, ha⟩
      · rw [if_neg ha] at h
        simp only [List.head?_cons, Option.some_inj] at h
        subst h
        rw [hws] at ha
        cases ha rfl
    | cons b rest2 =>
      rw [collapseWs] at h
      by_cases ha : isJsWs a = true
      · exact ⟨a, rfl, ha⟩
      · rw [if_neg ha] at h
        simp only [List.head?_cons, Option.some_inj] at h
        subst h
        rw [hws] at ha
        cases ha rfl

theorem collapseWs_noTwo (l : List Char) :
    noTwoSpaces (collapseWs l) = true := by
  induction l with
  | nil => rfl
  | cons a rest ih =>
    cases rest with
    | nil =>
      rw [collapseWs]
      by_cases ha : isJsWs a = true
      · rw [if_pos ha]; rfl
      · rw [if_neg ha]; rfl
    | cons b rest2 =>
      rw [collapseWs]
      by_cases ha : isJsWs a = true
      · rw [if_pos ha]
        by_cases hb : isJsWs b = true
        · rw [if_pos hb]
          exact ih
        · rw [if_neg hb]
          cases hX : collapseWs (b :: rest2) with
          | nil => rfl
          | cons x xs =>
            have hx : isJsWs x = false := by
              cases hxw : isJsWs x with
              | false => rfl
              | true =>
                obtain ⟨d, hd1, hd2⟩ := collapseWs_head_ws
                  (by rw [hX]; rfl) hxw
                simp only [List.head?_cons, Option.some_inj] at hd1
                subst hd1
                rw [hd2] at hb
                cases hb rfl
            rw [noTwoSpaces, hx]
            rw [hX] at ih
            simp [ih]
      · rw [if_neg ha]
        simp only [Bool.not_eq_true] at ha
        cases hX : collapseWs (b :: rest2) with
        | nil => rfl
        | cons x xs =>
          rw [hX] at ih
          rw [noTwoSpaces, ha]
          simp [ih]

theorem collapseWs_eq_self {l : List Char}
    (hg : ∀ c ∈ l, isLowerWordChar c = true ∨ c = ' ')
    (hn : noTwoSpaces l = true) : collapseWs l = l := by
  induction l with
  | nil => rfl
  | cons a rest ih =>
    cases rest with
    | nil =>
      rw [collapseWs]
      rcases hg a (List.mem_cons_self _ _) with h | h
      · rw [if_neg]
        rw [lw_not_ws h]
        exact Bool.false_ne_true
      · subst h
        rw [if_pos (show isJsWs ' ' = true by decide)]
    | cons b rest2 =>
      have htail : collapseWs (b :: rest2) = b :: rest2 :=
        ih (fun c hc => hg c (List.mem_cons_of_mem _ hc))
          (noTwoSpaces_tail hn)
      rw [collapseWs]
      rcases hg a (List.mem_cons_self _ _) with h | h
      · rw [if_neg, htail]
        rw [lw_not_ws h]
        exact Bool.false_ne_true
      · subst h
        rw [if_pos (show isJsWs ' ' = true by decide)]
        have hb : isJsWs b = false := by
          cases hbw : isJsWs b with
          | false => rfl
          | true => exact absurd ⟨rfl, hbw⟩ (noTwoSpaces_head hn)
        rw [if_neg, htail]
        rw [hb]
        exact Bool.false_ne_true

-- dropWhile
theorem mem_of_dropWhile {p : Char → Bool} {l : List Char} {c : Char}
    (h : c ∈ l.dropWhile p) : c ∈ l := by
  induction l with
  | nil => cases h
  | cons a rest ih =>
    rw [List.dropWhile_cons] at h
    by_cases ha : p a = true
    · rw [if_pos ha] at h
      exact List.mem_cons_of_mem _ (ih h)
    · rw [if_neg ha] at h
      exact h

theorem head?_dropWhile {p : Char → Bool} {l : List Char} {c : Char}
    (h : (l.dropWhile p).head? = some c) : p c = false := by
  induction l with
  | nil => cases h
  | cons a rest ih =>
    rw [List.dropWhile_cons] at h
    by_cases ha : p a = true
    · rw [if_pos ha] at h
      exact ih h
    · rw [if_neg ha] at h
      simp only [List.head?_cons, Option.some_inj] at h
      subst h
      simpa using ha

theorem noTwoSpaces_dropWhile {p : Char → Bool} {l : List Char}
    (h : noTwoSpaces l = true) : noTwoSpaces (l.dropWhile p) = true := by
  induction l with
  | nil => rfl
  | cons a rest ih =>
    rw [List.dropWhile_cons]
    by_cases ha : p a = true
    · rw [if_pos ha]
      exact ih (noTwoSpaces_tail h)
    · rw [if_neg ha]
      exact h

theorem dropWhile_eq_self {p : Char → Bool} {l : List Char}
    (h : ∀ c, l.head? = some c → p c = false) : l.dropWhile p = l := by
  cases l with
  | nil => rfl
  | cons a rest =>
    rw [List.dropWhile_cons, if_neg]
    rw [h a rfl]
    exact Bool.false_ne_true

-- dropTrailingWs
theorem mem_of_dropTrailingWs {l : List Char} {c : Char}
    (h : c ∈ dropTrailingWs l) : c ∈ l := by
  induction l with
  | nil => cases h
  | cons a rest ih =>
    rw [dropTrailingWs] at h
    cases hr : dropTrailingWs rest with
    | nil =>
      rw [hr] at h
      by_cases ha : isJsWs a = true
      · rw [if_pos ha] at h
        cases h
      · rw [if_neg ha] at h
        simp only [List.mem_singleton] at h
        subst h
        exact List.mem_cons_self _ _
    | cons x xs =>
      rw [hr] at h
      rcases List.mem_cons.mp h with h1 | h1
      · subst h1
        exact List.mem_cons_self _ _
      · exact List.mem_cons_of_mem _ (ih (hr ▸ h1))

theorem dropTrailingWs_head {l : List Char} :
    dropTrailingWs l = [] ∨ (dropTrailingWs l).head? = l.head? := by
  cases l with
  | nil => exact Or.inl rfl
  | cons a rest =>
    rw [dropTrailingWs]
    cases hr : dropTrailingWs rest with
    | nil =>
      by_cases ha : isJsWs a = true
      · rw [if_pos ha]
        exact Or.inl rfl
      · rw [if_neg ha]
        exact Or.inr rfl
    | cons x xs => exact Or.inr rfl

theorem dropTrailingWs_getLast {l : List Char} {c : Char}
    (h : (dropTrailingWs l).getLast? = some c) : isJsWs c = false := by
  induction l with
  | nil => cases h
  | cons a rest ih =>
    rw [dropTrailingWs] at h
    cases hr : dropTrailingWs rest with
    | nil =>
      rw [hr] at h
      by_cases ha : isJsWs a = true
      · rw [if_pos ha] at h
        cases h
      · rw [if_neg ha] at h
        simp only [List.getLast?_singleton, Option.some_inj] at h
        subst h
        simpa using ha
    | cons x xs =>
      rw [hr] at h
      rw [List.getLast?_cons_cons] at h
      exact ih (hr ▸ h)

theorem noTwoSpaces_dropTrailingWs {l : List Char}
    (h : noTwoSpaces l = true) : noTwoSpaces (dropTrailingWs l) = true := by
  induction l with
  | nil => rfl
  | cons a rest ih =>
    rw [dropTrailingWs]
    cases hr : dropTrailingWs rest with
    | nil =>
      by_cases ha : isJsWs a = true
      · rw [if_pos ha]; rfl
      · rw [if_neg ha]; rfl
    | cons x xs =>
      have htail := ih (noTwoSpaces_tail h)
      rw [hr] at htail
      have hx : (x :: xs).head? = rest.head? := by
        rcases dropTrailingWs_head (l := rest) with h1 | h1
        · rw [h1] at hr; cases hr
        · rw [← hr, h1]
      cases rest with
      | nil => cases hx
      | cons b rest2 =>
        simp only [List.head?_cons, Option.some_inj] at hx
        subst hx
        rw [noTwoSpaces]
        have hab := noTwoSpaces_head h
        have : (isJsWs a && isJsWs x) = false := by
          cases hwa : isJsWs a with
          | false => rfl
          | true =>
            cases hwx : isJsWs x with
            | false => rfl
            | true => exact absurd ⟨hwa, hwx⟩ hab
        rw [this, htail]
        rfl

theorem dropTrailingWs_eq_self {l : List Char}
    (h : ∀ c, l.getLast? = some c → isJsWs c = false) :
    dropTrailingWs l = l := by
  induction l with
  | nil => rfl
  | cons a rest ih =>
    rw [dropTrailingWs]
    cases rest with
    | nil =>
      rw [show dropTrailingWs [] = [] from rfl]
      rw [if_neg]
      rw [h a (by rfl)]
      exact Bool.false_ne_true
    | cons b rest2 =>
      have htail : dropTrailingWs (b :: rest2) = b :: rest2 :=
        ih (fun c hc => h c (by rw [List.getLast?_cons_cons]; exact hc))
      rw [htail]

-- jsTrim
theorem mem_of_jsTrim {l : List Char} {c : Char} (h : c ∈ jsTrim l) :
    c ∈ l :=
  mem_of_dropWhile (mem_of_dropTrailingWs h)

theorem jsTrim_head {l : List Char} {c : Char}
    (h : (jsTrim l).head? = some c) : isJsWs c = false := by
  rw [jsTrim] at h
  rcases dropTrailingWs_head (l := l.dropWhile isJsWs) with h1 | h1
  · rw [h1] at h
    cases h
  · rw [h1] at h
    exact head?_dropWhile h

theorem jsTrim_getLast {l : List Char} {c : Char}
    (h : (jsTrim l).getLast? = some c) : isJsWs c = false :=
  dropTrailingWs_getLast h

theorem noTwoSpaces_jsTrim {l : List Char} (h : noTwoSpaces l = true) :
    noTwoSpaces (jsTrim l) = true :=
  noTwoSpaces_dropTrailingWs (noTwoSpaces_dropWhile h)

theorem jsTrim_eq_self {l : List Char}
    (hh : ∀ c, l.head? = some c → isJsWs c = false)
    (hl : ∀ c, l.getLast? = some c → isJsWs c = false) :
    jsTrim l = l := by
  rw [jsTrim, dropWhile_eq_self hh, dropTrailingWs_eq_self hl]

-- the fold+strip stage turns an upper-free list with canonical white
-- space into word characters and spaces only
theorem fold_strip_good (m : List Char)
    (hu : ∀ c ∈ m, ¬(65 ≤ c.toNat ∧ c.toNat ≤ 90))
    (hw : ∀ c ∈ m, isJsWs c = true → c = ' ') :
    ∀ c ∈ (m.map foldChar).map stripChar,
      isLowerWordChar c = true ∨ c = ' ' := by
  intro c hc
  obtain ⟨d, hd1, hd2⟩ := List.mem_map.mp hc
  obtain ⟨e, he1, he2⟩ := List.mem_map.mp hd1
  subst hd2
  rcases stripChar_shape d with ⟨hword, heq⟩ | ⟨hws, heq⟩ | heq
  · rw [heq]
    left
    apply word_notUpper_lower hword
    subst he2
    rcases foldChar_shape e with hf | hf
    · rw [hf]
      exact hu e he1
    · exact lw_not_upper hf
  · rw [heq]
    right
    subst he2
    rcases foldChar_shape e with hf | hf
    · rw [hf] at hws ⊢
      exact hw e he1 hws
    · rw [lw_not_ws hf] at hws
      cases hws
  · exact Or.inr heq

/-- Every output of the normalization pipeline is canonical: lower-case
word characters and single separating spaces, no white space at either
end. -/
theorem normalizePipe_canon (l : List Char) :
    (∀ c ∈ normalizePipe l, isLowerWordChar c = true ∨ c = ' ') ∧
    noTwoSpaces (normalizePipe l) = true ∧
    (∀ c, (normalizePipe l).head? = some c → isJsWs c = false) ∧
    (∀ c, (normalizePipe l).getLast? = some c → isJsWs c = false) := by
  have h1 : ∀ c ∈ l.map toLowerChar, ¬(65 ≤ c.toNat ∧ c.toNat ≤ 90) := by
    intro c hc
    obtain ⟨d, _, hd⟩ := List.mem_map.mp hc
    exact hd ▸ toLowerChar_not_upper d
  have h2 : ∀ c ∈ collapseWs (jsTrim (l.map toLowerChar)),
      ¬(65 ≤ c.toNat ∧ c.toNat ≤ 90) := by
    intro c hc
    rcases collapseWs_mem hc with h | ⟨hm, _⟩
    · subst h
      decide
    · exact h1 c (mem_of_jsTrim hm)
  have h2w : ∀ c ∈ collapseWs (jsTrim (l.map toLowerChar)),
      isJsWs c = true → c = ' ' := by
    intro c hc hws
    rcases collapseWs_mem hc with h | ⟨_, h⟩
    · exact h
    · rw [hws] at h
      cases h
  have h5 := fold_strip_good (collapseWs (jsTrim (l.map toLowerChar))) h2 h2w
  have h6g : ∀ c ∈ collapseWs (((collapseWs (jsTrim
      (l.map toLowerChar))).map foldChar).map stripChar),
      isLowerWordChar c = true ∨ c = ' ' := by
    intro c hc
    rcases collapseWs_mem hc with h | ⟨hm, _⟩
    · exact Or.inr h
    · exact h5 c hm
  refine ⟨?_, ?_, ?_, ?_⟩
  · intro c hc
    exact h6g c (mem_of_jsTrim hc)
  · exact noTwoSpaces_jsTrim (collapseWs_noTwo _)
  · intro c hc
    exact jsTrim_head hc
  · intro c hc
    exact jsTrim_getLast hc

/-- The normalization pipeline fixes canonical lists. -/
theorem normalizePipe_fix {l : List Char}
    (hg : ∀ c ∈ l, isLowerWordChar c = true ∨ c = ' ')
    (hn : noTwoSpaces l = true)
    (hh : ∀ c, l.head? = some c → isJsWs c = false)
    (hl : ∀ c, l.getLast? = some c → isJsWs c = false) :
    normalizePipe l = l := by
  rw [normalizePipe,
    map_fix (fun c hc => toLowerChar_fix (hg c hc)),
    jsTrim_eq_self hh hl,
    collapseWs_eq_self hg hn,
    map_fix (fun c hc => foldChar_fix (hg c hc)),
    map_fix (fun c hc => stripChar_fix (hg c hc)),
    collapseWs_eq_self hg hn,
    jsTrim_eq_self hh hl]

/-- C5: text normalization is idempotent —
`normalizeText (normalizeText x) = normalizeText x` for every string. -/
theorem C5_normalize_idempotent (s : String) :
    normalizeText (normalizeText s) = normalizeText s := by
  by_cases hs : s = ""
  · subst hs
    rfl
  · have hst : normalizeText s = String.mk (normalizePipe s.data) := by
      rw [normalizeText, if_neg hs]
    rw [hst]
    by_cases ht : String.mk (normalizePipe s.data) = ""
    · rw [normalizeText, if_pos ht, ht]
    · rw [normalizeText, if_neg ht]
      have hcanon := normalizePipe_canon s.data
      have hfix : normalizePipe (String.mk (normalizePipe s.data)).data
          = normalizePipe s.data :=
        normalizePipe_fix hcanon.1 hcanon.2.1 hcanon.2.2.1 hcanon.2.2.2
      rw [hfix]

/-- C10: for every input, `normalizeText` outputs only lower-case ASCII
word characters (`a-z`, `0-9`, `_`) separated by single spaces, with no
leading or trailing white space; accented letters outside the Vietnamese
diacritic families — `ü`, `ñ`, `ç` — are replaced by spaces (removed)
rather than folded to their base letters, while the Vietnamese families
are folded. -/
theorem C10_normalized_shape :
    (∀ (s : String), ∀ c ∈ (normalizeText s).data,
      isLowerWordChar c = true ∨ c = ' ') ∧
    (∀ s : String, noTwoSpaces (normalizeText s).data = true) ∧
    (∀ (s : String) (c : Char),
      (normalizeText s).data.head? = some c → isJsWs c = false) ∧
    (∀ (s : String) (c : Char),
      (normalizeText s).data.getLast? = some c → isJsWs c = false) ∧
    normalizeText "aüb" = "a b" ∧ normalizeText "añb" = "a b" ∧
    normalizeText "açb" = "a b" ∧ normalizeText "áéíóúý" = "aeiouy" := by
  have key : ∀ s : String,
      (∀ c ∈ (normalizeText s).data, isLowerWordChar c = true ∨ c = ' ') ∧
      noTwoSpaces (normalizeText s).data = true ∧
      (∀ c, (normalizeText s).data.head? = some c → isJsWs c = false) ∧
      (∀ c, (normalizeText s).data.getLast? = some c → isJsWs c = false) := by
    intro s
    by_cases hs : s = ""
    · subst hs
      refine ⟨?_, rfl, ?_, ?_⟩
      · intro c hc
        cases hc
      · intro c hc
        exact Option.noConfusion hc
      · intro c hc
        exact Option.noConfusion hc
    · rw [normalizeText, if_neg hs]
      exact normalizePipe_canon s.data
  refine ⟨fun s => (key s).1, fun s => (key s).2.1,
    fun s => (key s).2.2.1, fun s => (key s).2.2.2,
    by decide, by decide, by decide, by decide⟩

/-- C10 witness: the invariants instantiated at "Xin  Chào!?", whose
normalization is "xin chao", starting with the word character `x`. -/
theorem C10_normalized_shape_witness :
    (isLowerWordChar 'x' = true ∨ 'x' = ' ') ∧
    noTwoSpaces (normalizeText "Xin  Chào!?").data = true ∧
    isJsWs 'x' = false := by
  refine ⟨?_, C10_normalized_shape.2.1 "Xin  Chào!?", ?_⟩
  · exact C10_normalized_shape.1 "Xin  Chào!?" 'x' (by decide)
  · exact C10_normalized_shape.2.2.1 "Xin  Chào!?" 'x' (by decide)
